import Mathlib

/-!
Shallow embedding of the large-javascript-libraries audit and of the
BundlePhobia catalog builder of this repository.

Audit side (class LargeJavascriptLibraries, static audit / getSuggestions):
JavaScript objects keyed by strings are modelled as association lists read
through `objGet`; a JavaScript property read that would dereference
`undefined` (a thrown TypeError) is modelled with `Except.error`.

Builder side (generate-bundlephobia-database.js): `hasBeenRecentlyScraped`,
`validateLibraryObject`, the stdout parse loop, the per-package merge into the
database object, and the main package loop with its early break on a rejected
per-package promise.
-/

namespace Lighthouse

/-- JavaScript object property read: first binding of the key wins. -/
def objGet {α : Type} (k : String) : List (String × α) → Option α
  | [] => none
  | (k₁, v) :: rest => if k = k₁ then some v else objGet k rest

/-- JavaScript object property write: update the key in place if present,
otherwise append it (insertion order of a JS object). -/
def assocSet {α : Type} : List (String × α) → String → α → List (String × α)
  | [], k, v => [(k, v)]
  | (k₁, v₁) :: rest, k, v =>
    if k₁ = k then (k, v) :: rest else (k₁, v₁) :: assocSet rest k v

/-- One BundlePhobia size record, the shape stored per version in
bundlephobia-database.json and consumed by the audit
(typedef BundlePhobiaLibrary in the source). -/
structure BundlePhobiaLibrary where
  name : String
  version : String
  gzip : Nat
  description : String
  repository : String
  deriving Repr, DecidableEq, Inhabited

/-- Per-package version table of the catalog consumed by the audit:
version string (or the key "latest") to size record. -/
abbrev PackageEntry := List (String × BundlePhobiaLibrary)

/-- The catalog consumed by the audit: package name to version table. -/
abbrev Catalog := List (String × PackageEntry)

/-- One detected library from the Stacks artifact
(LH.Artifacts.DetectedStack): detector tag, optional npm name, optional
detected version. -/
structure DetectedStack where
  detector : String
  npm : Option String
  version : Option String
  deriving Repr, DecidableEq

/-- One element pushed onto libraryPairings by the audit. -/
structure Pairing where
  original : BundlePhobiaLibrary
  suggestion : BundlePhobiaLibrary
  deriving Repr, DecidableEq

/-- The library-suggestions configuration: group key to the list of
interchangeable package names of that group. -/
abbrev SuggestionMap := List (String × List String)

/-- LargeJavascriptLibraries.getSuggestions: the first group whose list
contains the npm name, with that name filtered out; otherwise []. -/
def getSuggestions (m : SuggestionMap) (npm : String) : List String :=
  match m.find? (fun g => g.2.contains npm) with
  | some g => g.2.filter (fun s => s != npm)
  | none => []

/-- The version key the audit reads for the original record:
the detected version when it is truthy and present in the package entry,
otherwise "latest". -/
def resolveVersion (entry : PackageEntry) (v : Option String) : String :=
  match v with
  | some s => if s ≠ "" ∧ (objGet s entry).isSome then s else "latest"
  | none => "latest"

/-- One iteration of the suggestions.map callback of the audit. Reading a
property of an undefined record (missing "latest" of a present alternative,
or an unresolvable original) throws, modelled as Except.error. -/
def considerSuggestion (cat : Catalog) (entry : PackageEntry) (v : String)
    (ps : List Pairing) (s : String) : Except String (List Pairing) :=
  match objGet s cat with
  | none => .ok ps
  | some altEntry =>
    match objGet "latest" altEntry with
    | none => .error "TypeError"
    | some alt =>
      match objGet v entry with
      | none => .error "TypeError"
      | some orig =>
        .ok (if alt.gzip < orig.gzip then ps ++ [⟨orig, alt⟩] else ps)

/-- The suggestions.map loop of the audit, pushing pairings in order and
propagating a thrown TypeError. -/
def considerAll (cat : Catalog) (entry : PackageEntry) (v : String) :
    List Pairing → List String → Except String (List Pairing)
  | ps, [] => .ok ps
  | ps, s :: rest =>
    match considerSuggestion cat entry v ps s with
    | .error e => .error e
    | .ok ps₁ => considerAll cat entry v ps₁ rest

/-- Mutable state of the audit loop: the libraryPairings accumulator and the
seenLibraries set (as a list of names). -/
abbrev AuditState := List Pairing × List String

/-- One iteration of the main for-loop of LargeJavascriptLibraries.audit:
skip on falsy npm, on a package absent from the catalog, on empty
suggestions, or on an already seen name; otherwise record the name as seen,
resolve the version and run the suggestions loop. -/
def processLibrary (cat : Catalog) (m : SuggestionMap) (st : AuditState)
    (lib : DetectedStack) : Except String AuditState :=
  match lib.npm with
  | none => .ok st
  | some npm =>
    if npm = "" then .ok st
    else
      match objGet npm cat with
      | none => .ok st
      | some entry =>
        if (getSuggestions m npm).isEmpty then .ok st
        else if st.2.contains npm then .ok st
        else
          match considerAll cat entry (resolveVersion entry lib.version)
              st.1 (getSuggestions m npm) with
          | .error e => .error e
          | .ok ps => .ok (ps, npm :: st.2)

/-- The main for-loop of the audit over the detected libraries. -/
def auditLoop (cat : Catalog) (m : SuggestionMap) :
    AuditState → List DetectedStack → Except String AuditState
  | st, [] => .ok st
  | st, lib :: rest =>
    match processLibrary cat m st lib with
    | .error e => .error e
    | .ok st₁ => auditLoop cat m st₁ rest

/-- LargeJavascriptLibraries.audit: filter the Stacks artifact to detector
"js", run the pairing loop, and return the score together with the emitted
libraryPairings (the table rendering is outside the claims). -/
def audit (cat : Catalog) (m : SuggestionMap) (sts : List DetectedStack) :
    Except String (Nat × List Pairing) :=
  match auditLoop cat m ([], [])
      (sts.filter (fun s => s.detector == "js")) with
  | .error e => .error e
  | .ok st => .ok (if st.1.length > 0 then 0 else 1, st.1)

/-! Builder side: generate-bundlephobia-database.js. -/

/-- The lastScraped field of a database entry: a millisecond timestamp or
the string sentinel "Error". -/
inductive Stamp where
  | t (ms : Int)
  | err
  deriving Repr, DecidableEq

/-- One package entry of the builder database: version keys (including the
"latest" alias) plus the lastScraped metadata field. -/
structure DbEntry where
  versions : List (String × BundlePhobiaLibrary)
  lastScraped : Option Stamp
  deriving Repr, DecidableEq

/-- The builder database object: package name to entry. -/
abbrev Db := List (String × DbEntry)

/-- hasBeenRecentlyScraped: the entry exists, lastScraped is not the error
sentinel, and (now - lastScraped) / (1000*60*60*24.0) < 7. The division by
the positive constant is folded into the equivalent integer comparison. -/
def hasBeenRecentlyScraped (db : Db) (now : Int) (lib : String) : Bool :=
  match objGet lib db with
  | none => false
  | some e =>
    match e.lastScraped with
    | some (.t ms) => now - ms < 7 * 24 * 60 * 60 * 1000
    | some .err => false
    | none => false

/-- One JSON object as parsed from a stdout line, before validation: each
required property either present or absent. -/
structure RawLibrary where
  name : Option String
  size : Option Nat
  gzip : Option Nat
  description : Option String
  repository : Option String
  version : Option String
  deriving Repr, DecidableEq

/-- The regular expression test of validateLibraryObject: the version string
matches the anchored pattern of one or more ASCII digits followed by the
literal text " packages". -/
def matchesNPackages (s : String) : Bool :=
  let cs := s.toList
  let suf := (" packages").toList
  decide (suf.length < cs.length) &&
    (cs.drop (cs.length - suf.length) == suf) &&
    (cs.take (cs.length - suf.length)).all Char.isDigit

/-- The specification reading of the false-positive pattern: the string is a
nonempty run of digits followed by " packages". -/
def isNPackagesShape (s : String) : Prop :=
  ∃ ds : List Char, ds ≠ [] ∧ ds.all Char.isDigit = true ∧
    s.toList = ds ++ (" packages").toList

/-- validateLibraryObject: all six required properties exist and the version
string does not match the false-positive pattern. -/
def validateLibraryObject (l : RawLibrary) : Bool :=
  l.name.isSome && l.size.isSome && l.gzip.isSome &&
  l.description.isSome && l.repository.isSome &&
  (match l.version with
   | some v => !matchesNPackages v
   | none => false)

/-- One nonempty stdout line of the scrape: either text that fails
JSON.parse, or a parsed object. -/
inductive LineResult where
  | junk
  | record (r : RawLibrary)
  deriving Repr, DecidableEq

/-- The stdout parse loop: collect the records that pass validation in
order, and report whether any line failed to parse (which sets
lastScraped to the error sentinel). -/
def parseLoop : List LineResult → List RawLibrary × Bool
  | [] => ([], false)
  | .junk :: rest => ((parseLoop rest).1, true)
  | .record r :: rest =>
    (if validateLibraryObject r then r :: (parseLoop rest).1
     else (parseLoop rest).1,
     (parseLoop rest).2)

/-- The five fields the merge writes for a validated record. -/
def toStored (r : RawLibrary) : BundlePhobiaLibrary :=
  ⟨r.name.getD "", r.version.getD "", r.gzip.getD 0,
   r.description.getD "", r.repository.getD ""⟩

/-- A database entry before any write: no version keys, no lastScraped. -/
def emptyEntry : DbEntry := ⟨[], none⟩

/-- One record write of the merge loop:
database[name] = \x7b ...database[name], [version]: record, lastScraped \x7d. -/
def writeVersion (db : Db) (r : BundlePhobiaLibrary) (stamp : Stamp) : Db :=
  let e := (objGet r.name db).getD emptyEntry
  assocSet db r.name ⟨assocSet e.versions r.version r, some stamp⟩

/-- The index-zero extra write of the merge loop:
database[name]["latest"] = database[name][version]. -/
def writeLatest (db : Db) (r : BundlePhobiaLibrary) : Db :=
  match objGet r.name db with
  | none => db
  | some e =>
    assocSet db r.name
      ⟨assocSet e.versions "latest" ((objGet r.version e.versions).getD r),
       e.lastScraped⟩

/-- The merge loop past its first record. -/
def mergeTail (stamp : Stamp) : Db → List BundlePhobiaLibrary → Db
  | db, [] => db
  | db, r :: rest => mergeTail stamp (writeVersion db r stamp) rest

/-- The libraries.forEach merge of collectLibraryStats: every record writes
its version key and lastScraped; the first record additionally becomes the
"latest" alias. -/
def mergeRecords (db : Db) (records : List BundlePhobiaLibrary)
    (stamp : Stamp) : Db :=
  match records with
  | [] => db
  | r₀ :: rest => mergeTail stamp (writeLatest (writeVersion db r₀ stamp) r₀) rest

/-- Outcome of the exec("bundle-phobia ...") call: a process error, or the
stdout lines. -/
inductive ExecResult where
  | fail
  | ok (lines : List LineResult)
  deriving Repr, DecidableEq

/-- Observable outcome of one collectLibraryStats call: the database
afterwards, whether the external command was run, and whether the
per-package promise was rejected. -/
structure StepResult where
  db : Db
  networkCalled : Bool
  rejected : Bool
  deriving Repr, DecidableEq

/-- collectLibraryStats: skip without any external call when recently
scraped; reject (leaving the database untouched) when exec reports an
error; otherwise parse, validate and merge, stamping the entries with the
error sentinel exactly when some line failed to parse. -/
def collectLibraryStats (db : Db) (now : Int) (lib : String)
    (fetch : ExecResult) : StepResult :=
  if hasBeenRecentlyScraped db now lib then ⟨db, false, false⟩
  else
    match fetch with
    | .fail => ⟨db, true, true⟩
    | .ok lines =>
      let parsed := parseLoop lines
      let stamp := if parsed.2 then Stamp.err else Stamp.t now
      ⟨mergeRecords db (parsed.1.map toStored) stamp, true, false⟩

/-- The main IIFE loop of the builder: packages in order, awaiting each
collectLibraryStats; a rejected promise is caught and breaks the loop
("Exiting early"). Returns the final database and whether the batch was
aborted. -/
def runBuilder (now : Int) (fetch : String → ExecResult) :
    Db → List String → Db × Bool
  | db, [] => (db, false)
  | db, p :: ps =>
    let r := collectLibraryStats db now p (fetch p)
    if r.rejected then (r.db, true)
    else runBuilder now fetch r.db ps

/-- The libraries constant of the builder, its scrape set:
Object.keys(librariesJSON).map(key => librariesJSON[key]).flat(),
that is the value lists concatenated in key order. -/
def scrapeSet : SuggestionMap → List String
  | [] => []
  | kv :: rest => kv.2 ++ scrapeSet rest

/-- Version-level read of the builder database:
database[package][version], when both exist. -/
def versionAt (db : Db) (p v : String) : Option BundlePhobiaLibrary :=
  match objGet p db with
  | none => none
  | some e => objGet v e.versions

/-- The alternatives the audit actually keeps for one processed entry, in
the order of the suggestion list (curator order), each paired with the
resolved original record. -/
def keptAlternatives (cat : Catalog) (entry : PackageEntry) (v : String)
    (suggs : List String) : List Pairing :=
  suggs.filterMap (fun s =>
    match objGet s cat with
    | none => none
    | some altEntry =>
      match objGet "latest" altEntry with
      | none => none
      | some alt =>
        match objGet v entry with
        | none => none
        | some orig =>
          if alt.gzip < orig.gzip then some ⟨orig, alt⟩ else none)

/-- An alternative name is safe to evaluate: if its package is present in
the catalog, the "latest" key exists (the read that otherwise throws). -/
def altOk (cat : Catalog) (s : String) : Bool :=
  match objGet s cat with
  | none => true
  | some ae => (objGet "latest" ae).isSome

/-! Helper lemmas shared by the claim theorems. -/

lemma objGet_assocSet {α : Type} (l : List (String × α)) (k : String) (v : α)
    (k' : String) :
    objGet k' (assocSet l k v) = if k' = k then some v else objGet k' l := by
  induction l with
  | nil =>
    by_cases h : k' = k <;> simp [assocSet, objGet, h]
  | cons p rest ih =>
    obtain ⟨k₁, v₁⟩ := p
    by_cases h1 : k₁ = k
    · subst h1
      by_cases h2 : k' = k₁ <;> simp [assocSet, objGet, h2]
    · by_cases h2 : k' = k₁
      · subst h2
        simp [assocSet, objGet, h1, Ne.symm h1]
      · simp [assocSet, objGet, h1, h2, ih]

lemma considerSuggestion_sound {cat : Catalog} {entry : PackageEntry}
    {v : String} {ps : List Pairing} {s : String} {ps₁ : List Pairing}
    (h : considerSuggestion cat entry v ps s = .ok ps₁)
    (hps : ∀ p ∈ ps, p.suggestion.gzip < p.original.gzip) :
    ∀ p ∈ ps₁, p.suggestion.gzip < p.original.gzip := by
  unfold considerSuggestion at h
  split at h
  · injection h with h
    subst h
    exact hps
  · split at h
    · exact absurd h (by simp)
    · split at h
      · exact absurd h (by simp)
      · injection h with h
        subst h
        split
        · intro p hp
          rcases List.mem_append.mp hp with hp | hp
          · exact hps p hp
          · rcases List.mem_singleton.mp hp with rfl
            assumption
        · exact hps

lemma considerAll_sound {cat : Catalog} {entry : PackageEntry} {v : String} :
    ∀ {suggs : List String} {ps ps₁ : List Pairing},
      considerAll cat entry v ps suggs = .ok ps₁ →
      (∀ p ∈ ps, p.suggestion.gzip < p.original.gzip) →
      ∀ p ∈ ps₁, p.suggestion.gzip < p.original.gzip := by
  intro suggs
  induction suggs with
  | nil =>
    intro ps ps₁ h hps
    unfold considerAll at h
    injection h with h
    subst h
    exact hps
  | cons s rest ih =>
    intro ps ps₁ h hps
    unfold considerAll at h
    split at h
    · exact absurd h (by simp)
    · exact ih h (considerSuggestion_sound (by assumption) hps)

lemma processLibrary_sound {cat : Catalog} {m : SuggestionMap}
    {st st₁ : AuditState} {lib : DetectedStack}
    (h : processLibrary cat m st lib = .ok st₁)
    (hps : ∀ p ∈ st.1, p.suggestion.gzip < p.original.gzip) :
    ∀ p ∈ st₁.1, p.suggestion.gzip < p.original.gzip := by
  unfold processLibrary at h
  split at h
  · injection h with h; subst h; exact hps
  · split at h
    · injection h with h; subst h; exact hps
    · split at h
      · injection h with h; subst h; exact hps
      · split at h
        · injection h with h; subst h; exact hps
        · split at h
          · injection h with h; subst h; exact hps
          · split at h
            · exact absurd h (by simp)
            · injection h with h
              subst h
              exact considerAll_sound (by assumption) hps

lemma auditLoop_sound {cat : Catalog} {m : SuggestionMap} :
    ∀ {libs : List DetectedStack} {st st₁ : AuditState},
      auditLoop cat m st libs = .ok st₁ →
      (∀ p ∈ st.1, p.suggestion.gzip < p.original.gzip) →
      ∀ p ∈ st₁.1, p.suggestion.gzip < p.original.gzip := by
  intro libs
  induction libs with
  | nil =>
    intro st st₁ h hps
    unfold auditLoop at h
    injection h with h
    subst h
    exact hps
  | cons lib rest ih =>
    intro st st₁ h hps
    unfold auditLoop at h
    split at h
    · exact absurd h (by simp)
    · exact ih h (processLibrary_sound (by assumption) hps)

/-- C1: every alternative kept in an emitted pairing has gzip size strictly
less than the gzip size of the resolved original record; an equal-or-larger
alternative is never pushed. -/
theorem audit_alternatives_strictly_smaller
    (cat : Catalog) (m : SuggestionMap) (sts : List DetectedStack)
    (score : Nat) (ps : List Pairing)
    (h : audit cat m sts = .ok (score, ps)) :
    ∀ p ∈ ps, p.suggestion.gzip < p.original.gzip := by
  unfold audit at h
  split at h
  · exact absurd h (by simp)
  · injection h with h
    have h2 := congrArg Prod.snd h
    simp only at h2
    subst h2
    exact auditLoop_sound (by assumption) (by intro p hp; cases hp)

/-- Witness for C1 at a concrete input on which the audit emits a pairing. -/
theorem audit_alternatives_strictly_smaller_witness :
    (Pairing.mk ⟨"orig", "latest", 100, "", ""⟩
      ⟨"a", "latest", 50, "", ""⟩).suggestion.gzip <
      (Pairing.mk ⟨"orig", "latest", 100, "", ""⟩
        ⟨"a", "latest", 50, "", ""⟩).original.gzip :=
  audit_alternatives_strictly_smaller
    [("orig", [("latest", ⟨"orig", "latest", 100, "", ""⟩)]),
     ("a", [("latest", ⟨"a", "latest", 50, "", ""⟩)])]
    [("g", ["orig", "a"])]
    [⟨"js", some "orig", none⟩]
    0 [Pairing.mk ⟨"orig", "latest", 100, "", ""⟩ ⟨"a", "latest", 50, "", ""⟩]
    rfl
    (Pairing.mk ⟨"orig", "latest", 100, "", ""⟩ ⟨"a", "latest", 50, "", ""⟩)
    (List.mem_singleton.mpr rfl)

/-- C10: the returned score is 0 exactly when at least one pairing was
produced and 1 when none were; it is always one of these two values and is
determined solely by emptiness of the pairing list. -/
theorem audit_score_binary (cat : Catalog) (m : SuggestionMap)
    (sts : List DetectedStack) (r : Nat × List Pairing)
    (h : audit cat m sts = .ok r) :
    r.1 = (if r.2.isEmpty then 1 else 0) ∧ (r.1 = 0 ∨ r.1 = 1) := by
  unfold audit at h
  split at h
  · exact absurd h (by simp)
  · injection h with h
    subst h
    rename_i st _
    obtain ⟨ps, seen⟩ := st
    cases ps <;> simp

/-- Witness for C10 at a concrete input on which the audit returns. -/
theorem audit_score_binary_witness :
    ((1 : Nat), ([] : List Pairing)).1 =
      (if ((1 : Nat), ([] : List Pairing)).2.isEmpty then 1 else 0) ∧
    (((1 : Nat), ([] : List Pairing)).1 = 0 ∨
      ((1 : Nat), ([] : List Pairing)).1 = 1) :=
  audit_score_binary [] [] [] (1, []) rfl

lemma getSuggestions_eq_nil {m : SuggestionMap} {npm : String}
    (h : ∀ g ∈ m, npm ∉ g.2) : getSuggestions m npm = [] := by
  unfold getSuggestions
  cases hf : m.find? (fun g => g.2.contains npm) with
  | none => rfl
  | some g =>
    exfalso
    have hmem := List.mem_of_find?_eq_some hf
    have hp := List.find?_some hf
    exact h g hmem (by simpa using hp)

/-- C6: an entry with no npm name, or whose name is in no suggestion group,
or whose name was already processed earlier in the call, contributes
nothing: the loop state is returned unchanged, so no pairing is emitted for
it. -/
theorem processLibrary_skip (cat : Catalog) (m : SuggestionMap)
    (st : AuditState) (lib : DetectedStack)
    (h : lib.npm = none ∨ lib.npm = some "" ∨
      ∃ npm, lib.npm = some npm ∧
        ((∀ g ∈ m, npm ∉ g.2) ∨ st.2.contains npm = true)) :
    processLibrary cat m st lib = .ok st := by
  rcases h with h | h | ⟨npm, hnpm, h⟩
  · simp [processLibrary, h]
  · simp [processLibrary, h]
  · unfold processLibrary
    rw [hnpm]
    dsimp only
    by_cases he : npm = ""
    · simp [he]
    · rw [if_neg he]
      cases hc : objGet npm cat with
      | none => rfl
      | some entry =>
        rcases h with h | h
        · simp [getSuggestions_eq_nil h]
        · by_cases hs : (getSuggestions m npm).isEmpty
          · simp [hs]
          · have h₁ : npm ∈ st.2 := by simpa using h
            simp [hs, h₁]

/-- Witness for C6 at a concrete entry lacking a package identity. -/
theorem processLibrary_skip_witness :
    processLibrary [] [] ([], []) ⟨"js", none, none⟩ = .ok ([], []) :=
  processLibrary_skip [] [] ([], []) ⟨"js", none, none⟩ (Or.inl rfl)

/-- C4 counterexample: for the suggestion map with groups g and h the scrape
set is the flattened value lists only: the key "g" is absent from it, and
the duplicated value "a" is kept twice, so the set is not the deduplicated
union of keys and values. -/
theorem scrapeSet_not_key_union_cex :
    scrapeSet [("g", ["a", "b"]), ("h", ["a"])] = ["a", "b", "a"] ∧
    "g" ∉ scrapeSet [("g", ["a", "b"]), ("h", ["a"])] ∧
    ¬ (scrapeSet [("g", ["a", "b"]), ("h", ["a"])]).Nodup := by
  refine ⟨rfl, ?_, ?_⟩ <;> decide

/-- C4 amended: the scrape set contains exactly the names occurring in some
value list of the suggestion map (keys contribute nothing, duplicates are
not removed). -/
theorem scrapeSet_mem_iff (m : SuggestionMap) (x : String) :
    x ∈ scrapeSet m ↔ ∃ g, g ∈ m ∧ x ∈ g.2 := by
  induction m with
  | nil => simp [scrapeSet]
  | cons kv rest ih =>
    simp only [scrapeSet, List.mem_append, ih, List.mem_cons]
    constructor
    · rintro (hx | ⟨g, hg, hxg⟩)
      · exact ⟨kv, Or.inl rfl, hx⟩
      · exact ⟨g, Or.inr hg, hxg⟩
    · rintro ⟨g, hg | hg, hxg⟩
      · subst hg
        exact Or.inl hxg
      · exact Or.inr ⟨g, hg, hxg⟩

lemma considerSuggestion_absent {cat : Catalog} {entry : PackageEntry}
    {v s : String} {ps : List Pairing} (hc : objGet s cat = none) :
    considerSuggestion cat entry v ps s = .ok ps := by
  simp [considerSuggestion, hc]

lemma considerSuggestion_present {cat : Catalog} {entry : PackageEntry}
    {v s : String} {ps : List Pairing} {ae : PackageEntry}
    {alt orig : BundlePhobiaLibrary}
    (hc : objGet s cat = some ae) (hl : objGet "latest" ae = some alt)
    (ho : objGet v entry = some orig) :
    considerSuggestion cat entry v ps s =
      .ok (if alt.gzip < orig.gzip then ps ++ [⟨orig, alt⟩] else ps) := by
  simp [considerSuggestion, hc, hl, ho]

lemma considerAll_eq_append {cat : Catalog} {entry : PackageEntry}
    {v : String} (horig : (objGet v entry).isSome = true) :
    ∀ (suggs : List String) (ps : List Pairing),
      (∀ s ∈ suggs, altOk cat s = true) →
      considerAll cat entry v ps suggs =
        .ok (ps ++ keptAlternatives cat entry v suggs) := by
  intro suggs
  induction suggs with
  | nil =>
    intro ps _
    simp [considerAll, keptAlternatives]
  | cons s rest ih =>
    intro ps hall
    obtain ⟨orig, ho⟩ := Option.isSome_iff_exists.mp horig
    have hrest : ∀ x ∈ rest, altOk cat x = true :=
      fun x hx => hall x (List.mem_cons_of_mem s hx)
    simp only [considerAll]
    cases hc : objGet s cat with
    | none =>
      rw [considerSuggestion_absent hc]
      dsimp only
      rw [ih ps hrest]
      simp [keptAlternatives, List.filterMap_cons, hc]
    | some ae =>
      have hs := hall s (List.mem_cons_self s rest)
      unfold altOk at hs
      rw [hc] at hs
      simp only at hs
      obtain ⟨alt, hl⟩ := Option.isSome_iff_exists.mp hs
      rw [considerSuggestion_present hc hl ho]
      by_cases hlt : alt.gzip < orig.gzip
      · rw [if_pos hlt]
        dsimp only
        rw [ih _ hrest]
        simp [keptAlternatives, List.filterMap_cons, hc, hl, ho, hlt]
      · rw [if_neg hlt]
        dsimp only
        rw [ih _ hrest]
        simp [keptAlternatives, List.filterMap_cons, hc, hl, ho, hlt]

/-- C2 counterexample: with the suggestion group [orig, a, b] and latest
gzip sizes 100, 50, 30 the audit emits the alternatives in curator order
(a then b), whose gzip sizes 50, 30 are not ascending. -/
theorem audit_not_sorted_cex :
    audit
      [("orig", [("latest", ⟨"orig", "latest", 100, "", ""⟩)]),
       ("a", [("latest", ⟨"a", "latest", 50, "", ""⟩)]),
       ("b", [("latest", ⟨"b", "latest", 30, "", ""⟩)])]
      [("g", ["orig", "a", "b"])]
      [⟨"js", some "orig", none⟩] =
      .ok (0,
        [⟨⟨"orig", "latest", 100, "", ""⟩, ⟨"a", "latest", 50, "", ""⟩⟩,
         ⟨⟨"orig", "latest", 100, "", ""⟩, ⟨"b", "latest", 30, "", ""⟩⟩]) ∧
    ¬ List.Chain' (· ≤ ·)
        ([⟨⟨"orig", "latest", 100, "", ""⟩, ⟨"a", "latest", 50, "", ""⟩⟩,
          ⟨⟨"orig", "latest", 100, "", ""⟩,
            ⟨"b", "latest", 30, "", ""⟩⟩].map
          (fun p : Pairing => p.suggestion.gzip)) :=
  ⟨rfl, by simp [List.chain'_cons]⟩

/-- C2 amended: the kept alternatives of a processed entry are exactly the
suggestion list in curator order, filtered to catalog-present, strictly
smaller latest records; the audit performs no sorting by gzip size. -/
theorem processLibrary_curator_order (cat : Catalog) (m : SuggestionMap)
    (st : AuditState) (lib : DetectedStack) (npm : String)
    (entry : PackageEntry)
    (h1 : lib.npm = some npm) (h2 : npm ≠ "")
    (h3 : objGet npm cat = some entry)
    (h4 : getSuggestions m npm ≠ [])
    (h5 : st.2.contains npm = false)
    (h6 : (objGet (resolveVersion entry lib.version) entry).isSome = true)
    (h7 : ∀ s ∈ getSuggestions m npm, altOk cat s = true) :
    processLibrary cat m st lib =
      .ok (st.1 ++
        keptAlternatives cat entry (resolveVersion entry lib.version)
          (getSuggestions m npm),
        npm :: st.2) := by
  unfold processLibrary
  rw [h1]
  dsimp only
  rw [if_neg h2, h3]
  dsimp only
  have hne : ¬ ((getSuggestions m npm).isEmpty = true) :=
    fun hh => h4 (List.isEmpty_iff.mp hh)
  rw [if_neg hne]
  have hseen : ¬ (st.2.contains npm = true) := fun hh => by
    rw [h5] at hh
    cases hh
  rw [if_neg hseen]
  rw [considerAll_eq_append h6 _ _ h7]

/-- Witness for the C2 amended theorem on the counterexample input. -/
theorem processLibrary_curator_order_witness :
    processLibrary
      [("orig", [("latest", ⟨"orig", "latest", 100, "", ""⟩)]),
       ("a", [("latest", ⟨"a", "latest", 50, "", ""⟩)]),
       ("b", [("latest", ⟨"b", "latest", 30, "", ""⟩)])]
      [("g", ["orig", "a", "b"])] ([], []) ⟨"js", some "orig", none⟩ =
      .ok (([] : List Pairing) ++
        keptAlternatives
          [("orig", [("latest", ⟨"orig", "latest", 100, "", ""⟩)]),
           ("a", [("latest", ⟨"a", "latest", 50, "", ""⟩)]),
           ("b", [("latest", ⟨"b", "latest", 30, "", ""⟩)])]
          [("latest", ⟨"orig", "latest", 100, "", ""⟩)]
          (resolveVersion [("latest", ⟨"orig", "latest", 100, "", ""⟩)] none)
          (getSuggestions [("g", ["orig", "a", "b"])] "orig"),
        "orig" :: []) :=
  processLibrary_curator_order _ _ ([], []) ⟨"js", some "orig", none⟩
    "orig" [("latest", ⟨"orig", "latest", 100, "", ""⟩)]
    rfl (by decide) rfl (by decide) rfl rfl (by decide)

lemma considerAll_all_absent {cat : Catalog} {entry : PackageEntry}
    {v : String} :
    ∀ (suggs : List String) (ps : List Pairing),
      (∀ s ∈ suggs, objGet s cat = none) →
      considerAll cat entry v ps suggs = .ok ps := by
  intro suggs
  induction suggs with
  | nil =>
    intro ps _
    rfl
  | cons s rest ih =>
    intro ps hall
    simp only [considerAll]
    rw [considerSuggestion_absent (hall s (List.mem_cons_self s rest))]
    exact ih ps (fun x hx => hall x (List.mem_cons_of_mem s hx))

lemma considerAll_error_of_miss {cat : Catalog} {entry : PackageEntry}
    {v : String} (h6 : objGet v entry = none) :
    ∀ (suggs : List String) (ps : List Pairing),
      (∃ s ∈ suggs, (objGet s cat).isSome = true) →
      considerAll cat entry v ps suggs = .error "TypeError" := by
  intro suggs
  induction suggs with
  | nil =>
    intro ps hex
    obtain ⟨s, hs, _⟩ := hex
    cases hs
  | cons s rest ih =>
    intro ps hex
    simp only [considerAll]
    cases hc : objGet s cat with
    | none =>
      rw [considerSuggestion_absent hc]
      dsimp only
      apply ih
      obtain ⟨x, hx, hxs⟩ := hex
      rcases List.mem_cons.mp hx with rfl | hx
      · rw [hc] at hxs
        cases hxs
      · exact ⟨x, hx, hxs⟩
    | some ae =>
      cases hl : objGet "latest" ae with
      | none =>
        have he : considerSuggestion cat entry v ps s = .error "TypeError" := by
          simp [considerSuggestion, hc, hl]
        rw [he]
      | some alt =>
        have he : considerSuggestion cat entry v ps s = .error "TypeError" := by
          simp [considerSuggestion, hc, hl, h6]
        rw [he]

/-- C5 counterexample: the entry for "m" resolves neither the detected
version (none) nor "latest", and the alternative "a" is present in the
catalog, so the audit throws a TypeError instead of skipping silently. -/
theorem lookup_miss_raises_cex :
    audit [("m", [("2.0.0", ⟨"m", "2.0.0", 77, "", ""⟩)]),
           ("a", [("latest", ⟨"a", "latest", 50, "", ""⟩)])]
      [("g", ["m", "a"])] [⟨"js", some "m", none⟩] = .error "TypeError" :=
  rfl

/-- C5 amended: the original resolves to the detected version when present
and otherwise to "latest" (resolveVersion); when neither resolves, the
entry is skipped silently only when every alternative of its group is
absent from the catalog, and the audit throws a TypeError as soon as some
alternative is present. -/
theorem lookup_miss_behaviour (cat : Catalog) (m : SuggestionMap)
    (st : AuditState) (lib : DetectedStack) (npm : String)
    (entry : PackageEntry)
    (h1 : lib.npm = some npm) (h2 : npm ≠ "")
    (h3 : objGet npm cat = some entry)
    (h4 : getSuggestions m npm ≠ [])
    (h5 : st.2.contains npm = false)
    (h6 : objGet (resolveVersion entry lib.version) entry = none) :
    ((∀ s ∈ getSuggestions m npm, objGet s cat = none) →
      processLibrary cat m st lib = .ok (st.1, npm :: st.2)) ∧
    ((∃ s ∈ getSuggestions m npm, (objGet s cat).isSome = true) →
      processLibrary cat m st lib = .error "TypeError") := by
  have hne : ¬ ((getSuggestions m npm).isEmpty = true) :=
    fun hh => h4 (List.isEmpty_iff.mp hh)
  have hseen : ¬ (st.2.contains npm = true) := fun hh => by
    rw [h5] at hh
    cases hh
  constructor
  · intro hall
    unfold processLibrary
    rw [h1]
    dsimp only
    rw [if_neg h2, h3]
    dsimp only
    rw [if_neg hne, if_neg hseen]
    rw [considerAll_all_absent _ _ hall]
  · intro hex
    unfold processLibrary
    rw [h1]
    dsimp only
    rw [if_neg h2, h3]
    dsimp only
    rw [if_neg hne, if_neg hseen]
    rw [considerAll_error_of_miss h6 _ _ hex]

/-- Witness for the C5 amended theorem: silent skip when no alternative is
present, thrown TypeError when one is. -/
theorem lookup_miss_behaviour_witness :
    processLibrary [("m", [("2.0.0", ⟨"m", "2.0.0", 77, "", ""⟩)])]
      [("g", ["m", "a"])] ([], []) ⟨"js", some "m", none⟩ =
      .ok (([] : List Pairing), "m" :: []) ∧
    processLibrary [("m", [("2.0.0", ⟨"m", "2.0.0", 77, "", ""⟩)]),
        ("a", [("latest", ⟨"a", "latest", 50, "", ""⟩)])]
      [("g", ["m", "a"])] ([], []) ⟨"js", some "m", none⟩ =
      .error "TypeError" :=
  ⟨(lookup_miss_behaviour [("m", [("2.0.0", ⟨"m", "2.0.0", 77, "", ""⟩)])]
      [("g", ["m", "a"])] ([], []) ⟨"js", some "m", none⟩ "m"
      [("2.0.0", ⟨"m", "2.0.0", 77, "", ""⟩)]
      rfl (by decide) rfl (by decide) rfl rfl).1 (by decide),
   (lookup_miss_behaviour [("m", [("2.0.0", ⟨"m", "2.0.0", 77, "", ""⟩)]),
        ("a", [("latest", ⟨"a", "latest", 50, "", ""⟩)])]
      [("g", ["m", "a"])] ([], []) ⟨"js", some "m", none⟩ "m"
      [("2.0.0", ⟨"m", "2.0.0", 77, "", ""⟩)]
      rfl (by decide) rfl (by decide) rfl rfl).2 ⟨"a", by decide, rfl⟩⟩

/-- C3 counterexample: with package "x" failing its exec call and "y"
succeeding afterwards, the run ends with the initial (empty) database — no
error sentinel is written for "x" — and the batch is aborted, so "y" is
never scraped. -/
theorem builder_failure_cex :
    runBuilder 0
      (fun p => if p = "x" then ExecResult.fail
        else ExecResult.ok
          [LineResult.record
            ⟨some "y", some 1, some 2, some "d", some "r", some "1.0.0"⟩])
      [] ["x", "y"] = ([], true) ∧
    objGet "x"
      (runBuilder 0
        (fun p => if p = "x" then ExecResult.fail
          else ExecResult.ok
            [LineResult.record
              ⟨some "y", some 1, some 2, some "d", some "r", some "1.0.0"⟩])
        [] ["x", "y"]).1 = none ∧
    objGet "y"
      (runBuilder 0
        (fun p => if p = "x" then ExecResult.fail
          else ExecResult.ok
            [LineResult.record
              ⟨some "y", some 1, some 2, some "d", some "r", some "1.0.0"⟩])
        [] ["x", "y"]).1 = none :=
  ⟨rfl, rfl, rfl⟩

/-- C3 amended: when the exec scrape fails entirely for a package that is
not recently scraped, the per-package promise rejects with the database
unchanged, and the main loop catches the rejection and breaks: the batch is
aborted and no later package of the scrape set is processed. -/
theorem builder_failure_aborts (db : Db) (now : Int) (p : String)
    (ps : List String) (fetch : String → ExecResult)
    (h1 : hasBeenRecentlyScraped db now p = false)
    (h2 : fetch p = .fail) :
    runBuilder now fetch db (p :: ps) = (db, true) := by
  unfold runBuilder collectLibraryStats
  rw [h1, h2]
  simp

/-- Witness for the C3 amended theorem at a concrete failing run. -/
theorem builder_failure_aborts_witness :
    runBuilder 7 (fun _ => ExecResult.fail)
      [("z", ⟨[], some (Stamp.t 0)⟩)] ["x", "q"] =
      ([("z", ⟨[], some (Stamp.t 0)⟩)], true) :=
  builder_failure_aborts [("z", ⟨[], some (Stamp.t 0)⟩)] 7 "x" ["q"]
    (fun _ => ExecResult.fail) rfl rfl

/-- C7: a package whose entry has a numeric lastScraped within the seven-day
window is skipped with no external call, while an entry carrying the error
sentinel is never considered fresh and is always re-scraped, whatever the
elapsed time. -/
theorem freshness_skip_and_error_rescrape (db : Db) (now : Int)
    (lib : String) (fetch : ExecResult) :
    (∀ e ms, objGet lib db = some e → e.lastScraped = some (Stamp.t ms) →
      now - ms < 7 * 24 * 60 * 60 * 1000 →
      collectLibraryStats db now lib fetch = ⟨db, false, false⟩) ∧
    (∀ e, objGet lib db = some e → e.lastScraped = some Stamp.err →
      hasBeenRecentlyScraped db now lib = false ∧
      (collectLibraryStats db now lib fetch).networkCalled = true) := by
  constructor
  · intro e ms he hs hlt
    have hfresh : hasBeenRecentlyScraped db now lib = true := by
      unfold hasBeenRecentlyScraped
      rw [he]
      dsimp only
      rw [hs]
      exact decide_eq_true hlt
    simp [collectLibraryStats, hfresh]
  · intro e he hs
    have hfresh : hasBeenRecentlyScraped db now lib = false := by
      unfold hasBeenRecentlyScraped
      rw [he]
      dsimp only
      rw [hs]
    refine ⟨hfresh, ?_⟩
    unfold collectLibraryStats
    rw [hfresh]
    cases fetch <;> simp

/-- Witness for C7: a one-hour-old entry is skipped without a call, and an
error-sentinel entry far in the past is still not fresh. -/
theorem freshness_skip_and_error_rescrape_witness :
    collectLibraryStats [("x", ⟨[], some (Stamp.t 0)⟩)] 3600000 "x"
        ExecResult.fail =
      ⟨[("x", ⟨[], some (Stamp.t 0)⟩)], false, false⟩ ∧
    (hasBeenRecentlyScraped [("y", ⟨[], some Stamp.err⟩)] 999999999999 "y" =
        false ∧
      (collectLibraryStats [("y", ⟨[], some Stamp.err⟩)] 999999999999 "y"
          (ExecResult.ok [])).networkCalled = true) :=
  ⟨(freshness_skip_and_error_rescrape [("x", ⟨[], some (Stamp.t 0)⟩)]
      3600000 "x" ExecResult.fail).1 ⟨[], some (Stamp.t 0)⟩ 0 rfl rfl
      (by decide),
   (freshness_skip_and_error_rescrape [("y", ⟨[], some Stamp.err⟩)]
      999999999999 "y" (ExecResult.ok [])).2 ⟨[], some Stamp.err⟩ rfl rfl⟩

lemma objGet_assocSet₂ {α : Type} (l : List (String × α)) (k : String)
    (v : α) (k₁ : String) (h : k₁ ≠ k) :
    objGet k₁ (assocSet l k v) = objGet k₁ l := by
  rw [objGet_assocSet, if_neg h]

lemma objGet_writeVersion_ne {db : Db} {r : BundlePhobiaLibrary}
    {stamp : Stamp} {p : String} (h : p ≠ r.name) :
    objGet p (writeVersion db r stamp) = objGet p db := by
  unfold writeVersion
  exact objGet_assocSet₂ _ _ _ _ h

lemma versionAt_writeVersion (db : Db) (r : BundlePhobiaLibrary)
    (stamp : Stamp) (p v : String) :
    versionAt (writeVersion db r stamp) p v =
      if p = r.name then
        (if v = r.version then some r else versionAt db p v)
      else versionAt db p v := by
  unfold versionAt writeVersion
  rw [objGet_assocSet]
  by_cases hp : p = r.name
  · subst hp
    rw [if_pos rfl, if_pos rfl]
    dsimp only
    rw [objGet_assocSet]
    by_cases hv : v = r.version
    · rw [if_pos hv, if_pos hv]
    · rw [if_neg hv, if_neg hv]
      cases hc : objGet r.name db with
      | none => rfl
      | some e => rfl
  · rw [if_neg hp, if_neg hp]

lemma objGet_writeLatest_ne {db : Db} {r : BundlePhobiaLibrary} {p : String}
    (h : p ≠ r.name) :
    objGet p (writeLatest db r) = objGet p db := by
  unfold writeLatest
  cases hc : objGet r.name db with
  | none => rfl
  | some e => exact objGet_assocSet₂ _ _ _ _ h

lemma versionAt_writeLatest_ne {db : Db} {r : BundlePhobiaLibrary}
    {p v : String} (h : v ≠ "latest") :
    versionAt (writeLatest db r) p v = versionAt db p v := by
  unfold versionAt writeLatest
  cases hc : objGet r.name db with
  | none => rfl
  | some e =>
    rw [objGet_assocSet]
    by_cases hp : p = r.name
    · rw [if_pos hp]
      dsimp only
      rw [objGet_assocSet₂ _ _ _ _ h, hp, hc]
    · rw [if_neg hp]

lemma versionAt_writeLatest_self (db : Db) (r : BundlePhobiaLibrary)
    (stamp : Stamp) :
    versionAt (writeLatest (writeVersion db r stamp) r) r.name "latest" =
      some r := by
  have h1 : objGet r.name (writeVersion db r stamp) =
      some ⟨assocSet ((objGet r.name db).getD emptyEntry).versions
        r.version r, some stamp⟩ := by
    unfold writeVersion
    rw [objGet_assocSet, if_pos rfl]
  unfold versionAt writeLatest
  rw [h1]
  dsimp only
  rw [objGet_assocSet, if_pos rfl]
  dsimp only
  rw [objGet_assocSet, if_pos rfl, objGet_assocSet, if_pos rfl]
  rfl

lemma objGet_mergeTail_ne {stamp : Stamp} :
    ∀ {rest : List BundlePhobiaLibrary} {db : Db} {p : String},
      (∀ r ∈ rest, r.name ≠ p) →
      objGet p (mergeTail stamp db rest) = objGet p db := by
  intro rest
  induction rest with
  | nil =>
    intro db p _
    rfl
  | cons r rest ih =>
    intro db p h
    unfold mergeTail
    rw [ih (fun x hx => h x (List.mem_cons_of_mem r hx))]
    exact objGet_writeVersion_ne
      (fun hp => h r (List.mem_cons_self r rest) hp.symm)

lemma versionAt_mergeTail {stamp : Stamp} :
    ∀ {rest : List BundlePhobiaLibrary} {db : Db} {p v : String},
      (∀ r ∈ rest, r.name = p → r.version ≠ v) →
      versionAt (mergeTail stamp db rest) p v = versionAt db p v := by
  intro rest
  induction rest with
  | nil =>
    intro db p v _
    rfl
  | cons r rest ih =>
    intro db p v h
    unfold mergeTail
    rw [ih (fun x hx => h x (List.mem_cons_of_mem r hx))]
    rw [versionAt_writeVersion]
    by_cases hp : p = r.name
    · rw [if_pos hp]
      rw [if_neg (fun hv => h r (List.mem_cons_self r rest) hp.symm hv.symm)]
    · rw [if_neg hp]

/-- C8: the merge writes only the scraped version keys and the "latest"
alias of the scraped package names: an unscraped package keeps its whole
entry, a version of a scraped package that was not returned in this run
keeps its record, and "latest" becomes the first record in first-scraped
order. -/
theorem merge_frame_effect (db : Db) (records : List BundlePhobiaLibrary)
    (stamp : Stamp) :
    (∀ p, (∀ r ∈ records, r.name ≠ p) →
      objGet p (mergeRecords db records stamp) = objGet p db) ∧
    (∀ p v, v ≠ "latest" →
      (∀ r ∈ records, r.name = p → r.version ≠ v) →
      versionAt (mergeRecords db records stamp) p v = versionAt db p v) ∧
    (∀ r₀ rest, records = r₀ :: rest →
      (∀ r ∈ rest, r.name = r₀.name → r.version ≠ "latest") →
      versionAt (mergeRecords db records stamp) r₀.name "latest" =
        some r₀) := by
  refine ⟨?_, ?_, ?_⟩
  · intro p h
    cases records with
    | nil => rfl
    | cons r₀ rest =>
      unfold mergeRecords
      rw [objGet_mergeTail_ne (fun x hx => h x (List.mem_cons_of_mem r₀ hx))]
      rw [objGet_writeLatest_ne
        (fun hp => h r₀ (List.mem_cons_self r₀ rest) hp.symm)]
      exact objGet_writeVersion_ne
        (fun hp => h r₀ (List.mem_cons_self r₀ rest) hp.symm)
  · intro p v hv h
    cases records with
    | nil => rfl
    | cons r₀ rest =>
      unfold mergeRecords
      rw [versionAt_mergeTail (fun x hx => h x (List.mem_cons_of_mem r₀ hx))]
      rw [versionAt_writeLatest_ne hv]
      rw [versionAt_writeVersion]
      by_cases hp : p = r₀.name
      · rw [if_pos hp]
        rw [if_neg
          (fun hveq => h r₀ (List.mem_cons_self r₀ rest) hp.symm hveq.symm)]
      · rw [if_neg hp]
  · intro r₀ rest hrec h
    subst hrec
    unfold mergeRecords
    rw [versionAt_mergeTail h]
    exact versionAt_writeLatest_self db r₀ stamp

/-- Witness for C8 on a concrete database: a foreign package and an
unscraped version survive the merge untouched, and "latest" becomes the
first scraped record. -/
theorem merge_frame_effect_witness :
    objGet "other"
      (mergeRecords [("other", ⟨[("1.0.0", ⟨"other", "1.0.0", 4, "", ""⟩)],
          some (Stamp.t 3)⟩)]
        [⟨"p", "2.0.0", 10, "d", "r"⟩] (Stamp.t 9)) =
      objGet "other" [("other", ⟨[("1.0.0", ⟨"other", "1.0.0", 4, "", ""⟩)],
        some (Stamp.t 3)⟩)] ∧
    versionAt
      (mergeRecords [("other", ⟨[("1.0.0", ⟨"other", "1.0.0", 4, "", ""⟩)],
          some (Stamp.t 3)⟩)]
        [⟨"p", "2.0.0", 10, "d", "r"⟩] (Stamp.t 9))
      "p" "latest" = some ⟨"p", "2.0.0", 10, "d", "r"⟩ :=
  ⟨(merge_frame_effect
      [("other", ⟨[("1.0.0", ⟨"other", "1.0.0", 4, "", ""⟩)],
        some (Stamp.t 3)⟩)]
      [⟨"p", "2.0.0", 10, "d", "r"⟩] (Stamp.t 9)).1 "other" (by decide),
   ((merge_frame_effect
      [("other", ⟨[("1.0.0", ⟨"other", "1.0.0", 4, "", ""⟩)],
        some (Stamp.t 3)⟩)]
      [⟨"p", "2.0.0", 10, "d", "r"⟩] (Stamp.t 9)).2.2
      ⟨"p", "2.0.0", 10, "d", "r"⟩ [] rfl (by decide))⟩

lemma matchesNPackages_iff (s : String) :
    matchesNPackages s = true ↔ isNPackagesShape s := by
  unfold matchesNPackages isNPackagesShape
  simp only [Bool.and_eq_true, decide_eq_true_eq, beq_iff_eq,
    List.all_eq_true]
  constructor
  · rintro ⟨⟨hlen, hdrop⟩, htake⟩
    refine ⟨(s.toList).take (s.toList.length - (" packages").toList.length),
      ?_, ?_, ?_⟩
    · intro hnil
      have hl := congrArg List.length hnil
      rw [List.length_take] at hl
      simp only [List.length_nil] at hl
      omega
    · exact htake
    · have hsplit := List.take_append_drop
        (s.toList.length - (" packages").toList.length) s.toList
      rw [hdrop] at hsplit
      exact hsplit.symm
  · rintro ⟨ds, hne, hall, heq⟩
    have hpos : 0 < ds.length := List.length_pos.mpr hne
    have hidx : s.toList.length - (" packages").toList.length = ds.length := by
      rw [heq, List.length_append]
      omega
    refine ⟨⟨?_, ?_⟩, ?_⟩
    · rw [heq, List.length_append]
      omega
    · rw [hidx, heq]
      exact List.drop_left ds _
    · rw [hidx, heq, List.take_left]
      exact hall

/-- C9: a scraped record passes validateLibraryObject exactly when all six
required properties are present and the version string is not of the shape
digits followed by " packages"; in the parse loop a failing record is
dropped while every validated sibling from the same stdout is kept. -/
theorem validate_iff_and_siblings :
    (∀ l : RawLibrary,
      validateLibraryObject l = true ↔
        (l.name.isSome = true ∧ l.size.isSome = true ∧
         l.gzip.isSome = true ∧ l.description.isSome = true ∧
         l.repository.isSome = true ∧
         ∃ v, l.version = some v ∧ ¬ isNPackagesShape v)) ∧
    (∀ (lines : List LineResult) (r : RawLibrary),
      r ∈ (parseLoop lines).1 ↔
        LineResult.record r ∈ lines ∧ validateLibraryObject r = true) := by
  constructor
  · intro l
    constructor
    · intro h
      unfold validateLibraryObject at h
      simp only [Bool.and_eq_true] at h
      obtain ⟨⟨⟨⟨⟨h1, h2⟩, h3⟩, h4⟩, h5⟩, h6⟩ := h
      refine ⟨h1, h2, h3, h4, h5, ?_⟩
      cases hv : l.version with
      | none =>
        rw [hv] at h6
        cases h6
      | some v =>
        rw [hv] at h6
        dsimp only at h6
        refine ⟨v, rfl, fun hshape => ?_⟩
        rw [(matchesNPackages_iff v).mpr hshape] at h6
        simp at h6
    · rintro ⟨h1, h2, h3, h4, h5, v, hv, hsh⟩
      unfold validateLibraryObject
      simp only [Bool.and_eq_true]
      refine ⟨⟨⟨⟨⟨h1, h2⟩, h3⟩, h4⟩, h5⟩, ?_⟩
      rw [hv]
      dsimp only
      cases hm : matchesNPackages v with
      | false => rfl
      | true => exact absurd ((matchesNPackages_iff v).mp hm) hsh
  · intro lines
    induction lines with
    | nil =>
      intro r
      simp [parseLoop]
    | cons line rest ih =>
      intro r
      cases line with
      | junk =>
        simp only [parseLoop, List.mem_cons]
        rw [ih]
        constructor
        · rintro ⟨hm, hr⟩
          exact ⟨Or.inr hm, hr⟩
        · rintro ⟨hm | hm, hr⟩
          · cases hm
          · exact ⟨hm, hr⟩
      | record r₁ =>
        by_cases hval : validateLibraryObject r₁ = true
        · simp only [parseLoop, hval, if_true, List.mem_cons]
          rw [ih]
          constructor
          · rintro (rfl | ⟨hm, hr⟩)
            · exact ⟨Or.inl rfl, hval⟩
            · exact ⟨Or.inr hm, hr⟩
          · rintro ⟨hm | hm, hr⟩
            · injection hm with hm
              subst hm
              exact Or.inl rfl
            · exact Or.inr ⟨hm, hr⟩
        · have hval₁ : validateLibraryObject r₁ = false :=
            Bool.not_eq_true _ ▸ Bool.of_not_eq_true hval
          simp only [parseLoop, hval₁, Bool.false_eq_true, if_false,
            List.mem_cons]
          rw [ih]
          constructor
          · rintro ⟨hm, hr⟩
            exact ⟨Or.inr hm, hr⟩
          · rintro ⟨hm | hm, hr⟩
            · injection hm with hm
              subst hm
              exact absurd hr hval
            · exact ⟨hm, hr⟩

/-- Witness for the C4 amended theorem at a concrete suggestion map. -/
theorem scrapeSet_mem_iff_witness :
    "b" ∈ scrapeSet [("g", ["a", "b"])] ↔
      ∃ g, g ∈ [("g", ["a", "b"])] ∧ "b" ∈ g.2 :=
  scrapeSet_mem_iff [("g", ["a", "b"])] "b"

/-- Witness for C9 at a concrete parse run. -/
theorem validate_iff_and_siblings_witness :
    (⟨none, none, none, none, none, none⟩ : RawLibrary) ∈
        (parseLoop []).1 ↔
      LineResult.record ⟨none, none, none, none, none, none⟩ ∈
          ([] : List LineResult) ∧
        validateLibraryObject ⟨none, none, none, none, none, none⟩ = true :=
  validate_iff_and_siblings.2 [] ⟨none, none, none, none, none, none⟩

end Lighthouse
